import Mathlib

/-!
Verification of the `petit_chat` animated banner sprite of `mistral-vibe`
(`src/vibe/cli/textual_ui/widgets/banner/petit_chat.py`).

A coordinate is modelled as a pair `(row, column) : ℕ × ℕ`; the Python source
encodes the same data as the complex number `row*1j + column`.  A dot set is a
`Finset (ℕ × ℕ)`.
-/

set_option autoImplicit false
set_option maxRecDepth 100000

abbrev Coord : Type := ℕ × ℕ

abbrev DotSet : Type := Finset Coord

/-- A transition frame: coordinates to deactivate and coordinates to activate
(`{"remove": ..., "add": ...}` in the source). -/
structure Delta where
  remove : DotSet
  add : DotSet
deriving DecidableEq

/-- One delta application: `self._dots -= transition["remove"]` followed by
`self._dots |= transition["add"]`, i.e. `(s \ d.remove) ∪ d.add`. -/
def applyDelta (s : DotSet) (d : Delta) : DotSet :=
  (s \ d.remove) ∪ d.add

/-- Folding a list of deltas over a dot set, in order. -/
def applyN (s : DotSet) (ds : List Delta) : DotSet :=
  ds.foldl applyDelta s

/-- `WIDTH = 22` from the source. -/
def WIDTH : ℕ := 22

/-- `HEIGHT = 12` from the source. -/
def HEIGHT : ℕ := 12

/-- `STARTING_DOTS` from the source: per-row sets of lit columns. -/
def STARTING_DOTS : List (Finset ℕ) :=
  [∅,
   {6, 7, 15, 19},
   {5, 8, 14, 16, 18, 20},
   {4, 6, 7, 14, 17, 20},
   {3, 5, 10, 11, 12, 14, 20},
   {3, 5, 9, 13, 14, 16, 18, 20},
   {3, 5, 8, 13, 17, 21},
   {3, 6, 7, 8, 11, 14, 15, 16, 18, 19, 20},
   {4, 5, 8, 12, 17, 19},
   {6, 7, 8, 13, 18, 20},
   {9, 10, 11, 12, 13, 14, 15, 16, 17, 18, 19, 20},
   ∅]

/-- The initial dot set:
`{1j * y + x for y, row in enumerate(STARTING_DOTS) for x in row}`. -/
def startingDots : DotSet :=
  STARTING_DOTS.enum.foldl (fun acc yr => acc ∪ yr.2.image (fun x => (yr.1, x))) ∅

/-- `QUEUE_RIGHT_TO_MID` from the source. -/
def QUEUE_RIGHT_TO_MID : Delta :=
  { remove := {(1, 6), (1, 7), (2, 8), (3, 4), (3, 6), (3, 7), (8, 4), (8, 5)},
    add := {(1, 4), (2, 3), (3, 3), (3, 5), (7, 5), (8, 3), (9, 4), (9, 5)} }

/-- `QUEUE_MID_TO_RIGHT` from the source (swap of `QUEUE_RIGHT_TO_MID`). -/
def QUEUE_MID_TO_RIGHT : Delta :=
  { remove := QUEUE_RIGHT_TO_MID.add, add := QUEUE_RIGHT_TO_MID.remove }

/-- `QUEUE_MID_TO_LEFT` from the source. -/
def QUEUE_MID_TO_LEFT : Delta :=
  { remove := {(1, 4), (2, 5), (3, 3), (3, 5), (7, 5), (8, 3), (9, 4), (9, 5)},
    add := {(1, 1), (1, 2), (2, 0), (3, 1), (3, 2), (3, 4), (8, 4), (8, 5)} }

/-- `QUEUE_LEFT_TO_MID` from the source (swap of `QUEUE_MID_TO_LEFT`). -/
def QUEUE_LEFT_TO_MID : Delta :=
  { remove := QUEUE_MID_TO_LEFT.add, add := QUEUE_MID_TO_LEFT.remove }

/-- `WAIT` from the source: the empty delta. -/
def WAIT : Delta := { remove := ∅, add := ∅ }

/-- `HEAD_RIGHT` from the source. -/
def HEAD_RIGHT : Delta :=
  { remove := {(5, 16), (5, 18), (6, 17)}, add := {(5, 17), (5, 19), (6, 18)} }

/-- `HEAD_LEFT` from the source. -/
def HEAD_LEFT : Delta :=
  { remove := {(5, 17), (5, 19), (6, 18)}, add := {(5, 16), (5, 18), (6, 17)} }

/-- `HEAD_DOWN` from the source. -/
def HEAD_DOWN : Delta :=
  { remove := {(1, 15), (1, 19), (2, 14), (2, 16), (2, 18), (2, 20), (3, 17),
               (5, 17), (5, 19), (6, 13), (6, 18), (6, 21), (7, 14), (7, 15),
               (7, 16), (7, 19), (7, 20)},
    add := {(2, 15), (2, 19), (3, 16), (3, 18), (4, 17), (6, 14), (6, 17),
            (6, 19), (6, 20), (7, 13), (7, 18), (7, 21), (8, 14), (8, 15),
            (8, 16), (8, 18), (8, 20)} }

/-- `HEAD_UP` from the source.  Note that `(7, 18)` occurs in both the
`remove` and the `add` set. -/
def HEAD_UP : Delta :=
  { remove := {(2, 15), (2, 19), (3, 16), (3, 18), (4, 17), (6, 14), (6, 17),
               (6, 19), (6, 20), (7, 13), (7, 18), (7, 21), (8, 14), (8, 15),
               (8, 16), (8, 18), (8, 20)},
    add := {(1, 15), (1, 19), (2, 14), (2, 16), (2, 18), (2, 20), (3, 17),
            (5, 17), (5, 19), (6, 13), (6, 18), (6, 21), (7, 14), (7, 15),
            (7, 16), (7, 18), (7, 19), (7, 20)} }

/-- `BLINK_EYES_HEAD_HIGH` from the source. -/
def BLINK_EYES_HEAD_HIGH : List Delta :=
  [{ remove := {(5, 16), (5, 18)}, add := ∅ },
   { remove := ∅, add := {(5, 16), (5, 18)} }]

/-- `BLINK_EYES_HEAD_LOW` from the source. -/
def BLINK_EYES_HEAD_LOW : List Delta :=
  [{ remove := {(6, 17), (6, 19)}, add := ∅ },
   { remove := ∅, add := {(6, 17), (6, 19)} }]

/-- `TRANSITIONS` from the source: the cyclic table of 25 deltas. -/
def TRANSITIONS : List Delta :=
  BLINK_EYES_HEAD_HIGH ++
  [WAIT,
   QUEUE_RIGHT_TO_MID,
   HEAD_RIGHT,
   WAIT,
   QUEUE_MID_TO_LEFT,
   WAIT,
   QUEUE_LEFT_TO_MID,
   WAIT,
   HEAD_DOWN,
   WAIT,
   QUEUE_MID_TO_RIGHT] ++
  BLINK_EYES_HEAD_LOW ++
  [WAIT,
   QUEUE_RIGHT_TO_MID,
   WAIT,
   QUEUE_MID_TO_LEFT,
   WAIT,
   HEAD_UP,
   WAIT,
   QUEUE_LEFT_TO_MID,
   HEAD_LEFT,
   WAIT,
   QUEUE_MID_TO_RIGHT]

/-- Pose reached from the initial dot set after the first `n` deltas of the
table have been applied in order. -/
def poseAt (n : ℕ) : DotSet :=
  applyN startingDots (TRANSITIONS.take n)

/-- Bounds predicate for a coordinate: inside the fixed 12 × 22 grid. -/
def inBounds (c : Coord) : Prop :=
  c.1 < HEIGHT ∧ c.2 < WIDTH

instance (c : Coord) : Decidable (inBounds c) := by
  unfold inBounds; infer_instance

/-- Modelled from the spec: the base codepoint of the all-dots-off packed
block character emitted for a cell with no active coordinates.  The module
`vibe.cli.textual_ui.widgets.braille_renderer`, from which the source imports
`render_braille`, is not among the sources; the renderer here follows the
spec's CellRenderer contract and algorithm word for word. -/
def brailleBase : ℕ := 0x2800

/-- Modelled from the spec: the dot-to-bit mapping of the packing, as a power
of two.  Cell-local offsets (row, column) are mapped to bits
(0,0)↦0, (1,0)↦1, (2,0)↦2, (0,1)↦3, (1,1)↦4, (2,1)↦5, (3,0)↦6, (3,1)↦7;
OR-ing a bit in for each active sub-position equals summing these distinct
powers of two. -/
def dotBit (ro co : ℕ) : ℕ :=
  if co = 0 then (if ro = 3 then 64 else 2 ^ ro) else (if ro = 3 then 128 else 2 ^ (ro + 3))

/-- Modelled from the spec: the 8-bit mask of cell (cr, cc), OR-ing in one bit
for every active coordinate falling inside the cell at its sub-position.
Rows 4·cr..4·cr+3, columns 2·cc..2·cc+1. -/
def cellMask (S : DotSet) (cr cc : ℕ) : ℕ :=
  (if (4 * cr, 2 * cc) ∈ S then dotBit 0 0 else 0) +
  (if (4 * cr + 1, 2 * cc) ∈ S then dotBit 1 0 else 0) +
  (if (4 * cr + 2, 2 * cc) ∈ S then dotBit 2 0 else 0) +
  (if (4 * cr, 2 * cc + 1) ∈ S then dotBit 0 1 else 0) +
  (if (4 * cr + 1, 2 * cc + 1) ∈ S then dotBit 1 1 else 0) +
  (if (4 * cr + 2, 2 * cc + 1) ∈ S then dotBit 2 1 else 0) +
  (if (4 * cr + 3, 2 * cc) ∈ S then dotBit 3 0 else 0) +
  (if (4 * cr + 3, 2 * cc + 1) ∈ S then dotBit 3 1 else 0)

/-- Modelled from the spec: one output line of cells, `⌈W/2⌉ = (W+1)/2`
characters, cells concatenated left to right. -/
def renderLine (S : DotSet) (W cr : ℕ) : List Char :=
  (List.range ((W + 1) / 2)).map fun cc => Char.ofNat (brailleBase + cellMask S cr cc)

/-- Modelled from the spec: the block of `⌈H/4⌉ = (H+3)/4` cell lines. -/
def renderLines (S : DotSet) (W H : ℕ) : List (List Char) :=
  (List.range ((H + 3) / 4)).map fun cr => renderLine S W cr

/-- Line separator of the rendered text block. -/
def NEWLINE : String := "\n"

/-- Modelled from the spec: `render_braille(dots, width, height)` — the pure
renderer of the missing `braille_renderer` module, joining the cell lines with
a line separator. -/
def render_braille (S : DotSet) (W H : ℕ) : String :=
  String.intercalate NEWLINE ((renderLines S W H).map List.asString)

/-- The mutable state of the `PetitChat` widget: `self._dots`,
`self._transition_index`, `self._do_animate`, `self._freeze_requested`, and
whether `self._timer` is a live timer (`True`) or `None` (`False`); `mounted`
records whether `on_mount` has run (the host mounts a widget once). -/
structure PetitChat where
  dots : DotSet
  transition_index : ℕ
  do_animate : Bool
  freeze_requested : Bool
  timer : Bool
  mounted : Bool
deriving DecidableEq

/-- `PetitChat.__init__(animate)`: initial pose, index 0, no freeze request,
no timer yet, not yet mounted. -/
def PetitChat.init (animate : Bool) : PetitChat :=
  { dots := startingDots
    transition_index := 0
    do_animate := animate
    freeze_requested := false
    timer := false
    mounted := false }

/-- `PetitChat.compose`: the text block handed to the inner `Static` child,
rendered from the current dot set. -/
def PetitChat.compose (s : PetitChat) : String :=
  render_braille s.dots WIDTH HEIGHT

/-- `PetitChat.on_mount`: starts the interval timer iff `self._do_animate`. -/
def PetitChat.on_mount (s : PetitChat) : PetitChat :=
  { s with mounted := true, timer := s.do_animate }

/-- `PetitChat.freeze_animation`: sets the pending freeze flag. -/
def PetitChat.freeze_animation (s : PetitChat) : PetitChat :=
  { s with freeze_requested := true }

/-- `PetitChat._apply_next_transition`, the timer callback: on the stop branch
(`self._freeze_requested and self._transition_index == 0`) the timer is
stopped and dropped and nothing is displayed; otherwise the cursor's delta is
applied, the cursor advances modulo `len(TRANSITIONS)`, and the re-rendered
block is handed to the inner `Static`. -/
def PetitChat.apply_next_transition (s : PetitChat) : PetitChat × Option String :=
  if s.freeze_requested = true ∧ s.transition_index = 0 then
    ({ s with timer := false }, none)
  else
    let t := TRANSITIONS.getD s.transition_index WAIT
    let d := (s.dots \ t.remove) ∪ t.add
    ({ s with dots := d, transition_index := (s.transition_index + 1) % TRANSITIONS.length },
      some (render_braille d WIDTH HEIGHT))

/-- The state part of one tick. -/
def PetitChat.tick (s : PetitChat) : PetitChat :=
  s.apply_next_transition.1

/-- A tick that takes the delta branch (the negation of the stop-branch
condition of `_apply_next_transition`). -/
def AppliesDelta (s : PetitChat) : Prop :=
  ¬ (s.freeze_requested = true ∧ s.transition_index = 0)

instance (s : PetitChat) : Decidable (AppliesDelta s) := by
  unfold AppliesDelta; infer_instance

/-- Iterated ticks. -/
def tickN (s : PetitChat) : ℕ → PetitChat
  | 0 => s
  | n + 1 => tickN s.tick n

/-- One externally triggered event of the widget's lifetime: mounting (once),
a freeze request from the host, or a timer tick (only while the timer is
live). -/
inductive Step : PetitChat → PetitChat → Prop
  | mount (s : PetitChat) : s.mounted = false → Step s s.on_mount
  | freeze (s : PetitChat) : Step s s.freeze_animation
  | tick (s : PetitChat) : s.timer = true → Step s s.tick

/-- A widget state reachable from some construction by a sequence of events. -/
def Reachable (s : PetitChat) : Prop :=
  ∃ a : Bool, Relation.ReflTransGen Step (PetitChat.init a) s

/-- The inductive invariant of reachable widget states: the cursor is a valid
index, the dot set is the pose determined by the cursor, and a live timer
implies the widget was mounted. -/
def StateInv (s : PetitChat) : Prop :=
  s.transition_index < 26 ∧ s.dots = poseAt s.transition_index ∧
    (s.timer = true → s.mounted = true)

/-! ## Basic facts about the transition table and poses -/

lemma TRANSITIONS_length : TRANSITIONS.length = 26 := rfl

lemma applyAll_closure : applyN startingDots TRANSITIONS = startingDots := by decide

lemma poseAt_zero : poseAt 0 = startingDots := rfl

lemma TRANS_getD_eq (c : ℕ) (h : c < TRANSITIONS.length) :
    TRANSITIONS.getD c WAIT = TRANSITIONS.get ⟨c, h⟩ := by
  simp [List.getD_eq_getElem?_getD, List.getElem?_eq_getElem h]

lemma poseAt_succ (c : ℕ) (hc : c < TRANSITIONS.length) :
    poseAt (c + 1) = applyDelta (poseAt c) (TRANSITIONS.getD c WAIT) := by
  unfold poseAt applyN
  rw [List.take_succ, List.foldl_append, List.getElem?_eq_getElem hc,
    TRANS_getD_eq c hc]
  rfl

lemma poseAt_full : poseAt TRANSITIONS.length = startingDots := by
  unfold poseAt
  rw [List.take_length]
  exact applyAll_closure

lemma stepPose (c : ℕ) (hc : c < 26) :
    applyDelta (poseAt c) (TRANSITIONS.getD c WAIT) = poseAt ((c + 1) % 26) := by
  rcases Nat.lt_or_ge (c + 1) 26 with h | h
  · rw [Nat.mod_eq_of_lt h, poseAt_succ c (by rw [TRANSITIONS_length]; exact hc)]
  · have h26 : c + 1 = 26 := by omega
    rw [h26, Nat.mod_self, poseAt_zero, ← poseAt_full, TRANSITIONS_length, ← h26]
    exact (poseAt_succ c (by rw [TRANSITIONS_length]; exact hc)).symm

/-! ## One-tick characterization -/

lemma applyDelta_def (S : DotSet) (d : Delta) :
    applyDelta S d = (S \ d.remove) ∪ d.add := rfl

lemma ant_stop {s : PetitChat} (hf : s.freeze_requested = true)
    (h0 : s.transition_index = 0) :
    s.apply_next_transition = ({ s with timer := false }, none) := by
  unfold PetitChat.apply_next_transition
  rw [if_pos ⟨hf, h0⟩]

lemma ant_delta {s : PetitChat} (hd : AppliesDelta s) :
    s.apply_next_transition =
      ({ s with
          dots := applyDelta s.dots (TRANSITIONS.getD s.transition_index WAIT),
          transition_index := (s.transition_index + 1) % TRANSITIONS.length },
        some (render_braille
          (applyDelta s.dots (TRANSITIONS.getD s.transition_index WAIT)) WIDTH HEIGHT)) := by
  unfold PetitChat.apply_next_transition
  rw [if_neg hd]
  exact rfl

lemma tick_stop {s : PetitChat} (hf : s.freeze_requested = true)
    (h0 : s.transition_index = 0) :
    s.tick = { s with timer := false } := by
  unfold PetitChat.tick
  rw [ant_stop hf h0]

lemma tick_delta {s : PetitChat} (hd : AppliesDelta s) :
    s.tick = { s with
      dots := applyDelta s.dots (TRANSITIONS.getD s.transition_index WAIT),
      transition_index := (s.transition_index + 1) % TRANSITIONS.length } := by
  unfold PetitChat.tick
  rw [ant_delta hd]

/-! ## The reachable-state invariant -/

lemma stateInv_init (a : Bool) : StateInv (PetitChat.init a) := by
  refine ⟨?_, rfl, ?_⟩
  · show (0 : ℕ) < 26
    norm_num
  · intro h
    exact absurd h (by simp [PetitChat.init])

lemma stateInv_mount {s : PetitChat} (h : StateInv s) : StateInv s.on_mount :=
  ⟨h.1, h.2.1, fun _ => rfl⟩

lemma stateInv_freeze {s : PetitChat} (h : StateInv s) : StateInv s.freeze_animation :=
  ⟨h.1, h.2.1, h.2.2⟩

lemma stateInv_tick {s : PetitChat} (h : StateInv s) : StateInv s.tick := by
  by_cases hd : AppliesDelta s
  · rw [tick_delta hd]
    refine ⟨?_, ?_, h.2.2⟩
    · show (s.transition_index + 1) % TRANSITIONS.length < 26
      rw [TRANSITIONS_length]
      exact Nat.mod_lt _ (by norm_num)
    · show applyDelta s.dots (TRANSITIONS.getD s.transition_index WAIT) =
        poseAt ((s.transition_index + 1) % TRANSITIONS.length)
      rw [h.2.1, TRANSITIONS_length]
      exact stepPose s.transition_index h.1
  · have hc := not_not.mp hd
    rw [tick_stop hc.1 hc.2]
    exact ⟨h.1, h.2.1, fun ht => by cases ht⟩

lemma stateInv_step {s t : PetitChat} (hst : Step s t) (h : StateInv s) : StateInv t := by
  cases hst with
  | mount _ => exact stateInv_mount h
  | freeze => exact stateInv_freeze h
  | tick _ => exact stateInv_tick h

lemma reachable_stateInv {s : PetitChat} (h : Reachable s) : StateInv s := by
  obtain ⟨a, hr⟩ := h
  induction hr with
  | refl => exact stateInv_init a
  | tail _ hstep ih => exact stateInv_step hstep ih

lemma Reachable.step {s t : PetitChat} (hs : Reachable s) (hst : Step s t) : Reachable t := by
  obtain ⟨a, hr⟩ := hs
  exact ⟨a, hr.tail hst⟩

/-! ## Iterated ticks -/

lemma tickN_add (s : PetitChat) (m n : ℕ) : tickN s (m + n) = tickN (tickN s m) n := by
  induction m generalizing s with
  | zero =>
      rw [Nat.zero_add]
      exact rfl
  | succ m ih =>
      rw [Nat.add_right_comm]
      show tickN s.tick (m + n) = tickN (tickN s.tick m) n
      exact ih s.tick

lemma tick_stable {s : PetitChat} (hf : s.freeze_requested = true)
    (h0 : s.transition_index = 0) (ht : s.timer = false) : s.tick = s := by
  rw [tick_stop hf h0]
  cases s
  simp only at ht
  rw [ht]

lemma tickN_stable {s : PetitChat} (h : s.tick = s) : ∀ n, tickN s n = s := by
  intro n
  induction n with
  | zero => rfl
  | succ n ih =>
      show tickN s.tick n = s
      rw [h]
      exact ih

/-! ## Runs after a freeze request -/

lemma frozenRun (j : ℕ) : ∀ s : PetitChat, s.freeze_requested = true →
    0 < s.transition_index → s.transition_index < 26 → s.transition_index + j ≤ 26 →
    (tickN s j).freeze_requested = true ∧
    (tickN s j).transition_index = (s.transition_index + j) % 26 ∧
    (tickN s j).timer = s.timer ∧ (tickN s j).mounted = s.mounted ∧
    (tickN s j).do_animate = s.do_animate := by
  induction j with
  | zero =>
      intro s hf hpos hlt26 hle
      refine ⟨hf, ?_, rfl, rfl, rfl⟩
      show s.transition_index = (s.transition_index + 0) % 26
      rw [Nat.add_zero, Nat.mod_eq_of_lt hlt26]
  | succ j ih =>
      intro s hf hpos hlt26 hle
      have hd : AppliesDelta s := by
        intro hand
        obtain ⟨-, h0⟩ := hand
        omega
      have ht := tick_delta hd
      have hfields : s.tick.freeze_requested = s.freeze_requested ∧
          s.tick.timer = s.timer ∧ s.tick.mounted = s.mounted ∧
          s.tick.do_animate = s.do_animate ∧
          s.tick.transition_index = (s.transition_index + 1) % 26 := by
        rw [ht]
        exact ⟨rfl, rfl, rfl, rfl, by rw [TRANSITIONS_length]⟩
      rcases Nat.lt_or_ge (s.transition_index + 1) 26 with hlt | hge
      · have hidx : s.tick.transition_index = s.transition_index + 1 := by
          rw [hfields.2.2.2.2, Nat.mod_eq_of_lt hlt]
        have := ih s.tick (by rw [hfields.1]; exact hf) (by rw [hidx]; omega)
          (by rw [hidx]; omega) (by rw [hidx]; omega)
        refine ⟨this.1, ?_, ?_, ?_, ?_⟩
        · show (tickN s.tick j).transition_index = (s.transition_index + (j + 1)) % 26
          rw [this.2.1, hidx, Nat.add_right_comm, Nat.add_assoc]
        · show (tickN s.tick j).timer = s.timer
          rw [this.2.2.1, hfields.2.1]
        · show (tickN s.tick j).mounted = s.mounted
          rw [this.2.2.2.1, hfields.2.2.1]
        · show (tickN s.tick j).do_animate = s.do_animate
          rw [this.2.2.2.2, hfields.2.2.2.1]
      · have h26 : s.transition_index + 1 = 26 := by omega
        have hj0 : j = 0 := by omega
        subst hj0
        have hidx : s.tick.transition_index = 0 := by
          rw [hfields.2.2.2.2, h26, Nat.mod_self]
        refine ⟨?_, ?_, ?_, ?_, ?_⟩
        · show s.tick.freeze_requested = true
          rw [hfields.1]; exact hf
        · show s.tick.transition_index = (s.transition_index + 1) % 26
          rw [hidx, h26, Nat.mod_self]
        · exact hfields.2.1
        · exact hfields.2.2.1
        · exact hfields.2.2.2.1

lemma freeze_run (s : PetitChat) (hf : s.freeze_requested = true)
    (hlt : s.transition_index < 26) :
    (∀ j, j < (26 - s.transition_index) % 26 → AppliesDelta (tickN s j)) ∧
    (tickN s ((26 - s.transition_index) % 26)).transition_index = 0 ∧
    (tickN s ((26 - s.transition_index) % 26)).freeze_requested = true ∧
    (tickN s ((26 - s.transition_index) % 26)).timer = s.timer ∧
    tickN s ((26 - s.transition_index) % 26 + 1) =
      { tickN s ((26 - s.transition_index) % 26) with timer := false } ∧
    (∀ m, (26 - s.transition_index) % 26 + 1 ≤ m →
      tickN s m = tickN s ((26 - s.transition_index) % 26 + 1)) := by
  rcases Nat.eq_zero_or_pos s.transition_index with h0 | hpos
  · -- cursor already 0: no delta ticks, the very next tick stops
    have hk : (26 - s.transition_index) % 26 = 0 := by rw [h0]
    rw [hk]
    have hstop : s.tick = { s with timer := false } := tick_stop hf h0
    have hstable : PetitChat.tick { s with timer := false } = { s with timer := false } :=
      tick_stable hf h0 rfl
    refine ⟨fun j hj => absurd hj (by omega), h0, hf, rfl, ?_, ?_⟩
    · show s.tick = { s with timer := false }
      exact hstop
    · intro m hm
      obtain ⟨r, rfl⟩ : ∃ r, m = 1 + r := ⟨m - 1, by omega⟩
      rw [tickN_add s 1 r]
      show tickN s.tick r = s.tick
      rw [hstop]
      exact tickN_stable hstable r
  · -- cursor at c > 0: 26 - c delta ticks, then the stop tick
    have hk : (26 - s.transition_index) % 26 = 26 - s.transition_index := by
      apply Nat.mod_eq_of_lt
      omega
    rw [hk]
    have hrun := fun (j : ℕ) (hj : j ≤ 26 - s.transition_index) =>
      frozenRun j s hf hpos hlt (by omega)
    have hend := hrun (26 - s.transition_index) le_rfl
    have hend_idx : (tickN s (26 - s.transition_index)).transition_index = 0 := by
      rw [hend.2.1]
      have : s.transition_index + (26 - s.transition_index) = 26 := by omega
      rw [this, Nat.mod_self]
    have hstop : (tickN s (26 - s.transition_index)).tick =
        { tickN s (26 - s.transition_index) with timer := false } :=
      tick_stop hend.1 hend_idx
    refine ⟨?_, hend_idx, hend.1, hend.2.2.1, ?_, ?_⟩
    · intro j hj
      have hj' := hrun j (by omega)
      intro hand
      obtain ⟨-, hidx0⟩ := hand
      rw [hj'.2.1, Nat.mod_eq_of_lt (by omega)] at hidx0
      omega
    · show tickN s (26 - s.transition_index + 1) =
        { tickN s (26 - s.transition_index) with timer := false }
      rw [tickN_add s (26 - s.transition_index) 1]
      exact hstop
    · intro m hm
      obtain ⟨r, rfl⟩ : ∃ r, m = (26 - s.transition_index + 1) + r :=
        ⟨m - (26 - s.transition_index + 1), by omega⟩
      rw [tickN_add s (26 - s.transition_index + 1) r]
      have h1 : tickN s (26 - s.transition_index + 1) =
          { tickN s (26 - s.transition_index) with timer := false } := by
        rw [tickN_add s (26 - s.transition_index) 1]
        exact hstop
      rw [h1]
      refine tickN_stable ?_ r
      exact tick_stable hend.1 hend_idx rfl

lemma stateInv_tickN {s : PetitChat} (h : StateInv s) : ∀ n, StateInv (tickN s n) := by
  intro n
  induction n generalizing s with
  | zero => exact h
  | succ n ih =>
      show StateInv (tickN s.tick n)
      exact ih (stateInv_tick h)

lemma run_reachable {s : PetitChat} (hr : Reachable s) (hf : s.freeze_requested = false)
    (ht : s.timer = true) :
    ∀ n, Reachable (tickN s n) ∧ (tickN s n).freeze_requested = false ∧
      (tickN s n).timer = true := by
  intro n
  induction n generalizing s with
  | zero => exact ⟨hr, hf, ht⟩
  | succ n ih =>
      have hd : AppliesDelta s := by
        intro hand
        rw [hf] at hand
        cases hand.1
      have hfields : s.tick.freeze_requested = false ∧ s.tick.timer = true := by
        rw [tick_delta hd]
        exact ⟨hf, ht⟩
      show Reachable (tickN s.tick n) ∧ (tickN s.tick n).freeze_requested = false ∧
        (tickN s.tick n).timer = true
      exact ih (hr.step (Step.tick s ht)) hfields.1 hfields.2

lemma bounded_startingDots : ∀ c ∈ startingDots, inBounds c := by decide

lemma bounded_deltas :
    ∀ d ∈ TRANSITIONS, (∀ c ∈ d.remove, inBounds c) ∧ (∀ c ∈ d.add, inBounds c) := by
  decide

lemma bounded_tick {s : PetitChat} (hb : ∀ c ∈ s.dots, inBounds c) :
    ∀ c ∈ s.tick.dots, inBounds c := by
  by_cases hd : AppliesDelta s
  · rw [tick_delta hd]
    intro c hc
    change c ∈ applyDelta s.dots (TRANSITIONS.getD s.transition_index WAIT) at hc
    rw [applyDelta_def] at hc
    rcases Finset.mem_union.mp hc with h | h
    · exact hb c (Finset.mem_sdiff.mp h).1
    · rcases Nat.lt_or_ge s.transition_index TRANSITIONS.length with hlt | hge
      · rw [TRANS_getD_eq _ hlt] at h
        exact (bounded_deltas _ (TRANSITIONS.get_mem _ _)).2 c h
      · rw [List.getD_eq_getElem?_getD, List.getElem?_eq_none hge] at h
        exact absurd h (by simp [WAIT])
  · have hc := not_not.mp hd
    rw [tick_stop hc.1 hc.2]
    exact hb

/-! ## Claim theorems -/

/-- C1 (amended): the bundled transition table has N = 26 deltas (not 25 as
claimed), and applying all 26 deltas in order — each application being
`(state − remove) ∪ add` — returns the initial dot set exactly, as a set. -/
theorem closure_loop :
    TRANSITIONS.length = 26 ∧ applyN startingDots TRANSITIONS = startingDots :=
  ⟨rfl, applyAll_closure⟩

/-- C1 counterexample: `TRANSITIONS` has 26 entries, not N = 25, and applying
only the first 25 deltas does not restore the initial pose. -/
theorem closure_loop_counterexample :
    TRANSITIONS.length ≠ 25 ∧ applyN startingDots (TRANSITIONS.take 25) ≠ startingDots := by
  constructor
  · decide
  · decide

/-- C4 counterexample: `HEAD_UP` — an actual delta of the bundled table — has
the coordinate (7, 18) in both its `remove` and its `add` set; applying it to
the empty dot set leaves (7, 18) present, not absent, refuting the claim for
every dot set S and delta d. -/
theorem applyDelta_safe_counterexample :
    (7, 18) ∈ HEAD_UP.remove ∧ (7, 18) ∉ (∅ : DotSet) ∧
    (7, 18) ∈ applyDelta ∅ HEAD_UP ∧ HEAD_UP ∈ TRANSITIONS := by
  refine ⟨by decide, by decide, by decide, by decide⟩

/-- C4 (amended): delta application is total and no-op-safe: a coordinate in
`d.remove` that is not in `d.add` and absent from S stays absent after
applying d; a coordinate in `d.add` already present in S is present afterwards
and its membership is unchanged. -/
theorem applyDelta_safe (S : DotSet) (d : Delta) (c : Coord) :
    (c ∈ d.remove → c ∉ d.add → c ∉ S → c ∉ applyDelta S d) ∧
    (c ∈ d.add → c ∈ S → (c ∈ applyDelta S d ↔ c ∈ S)) := by
  constructor
  · intro hr ha hs hmem
    rw [applyDelta_def] at hmem
    rcases Finset.mem_union.mp hmem with h | h
    · exact hs (Finset.mem_sdiff.mp h).1
    · exact ha h
  · intro ha hs
    constructor
    · intro _
      exact hs
    · intro _
      rw [applyDelta_def]
      exact Finset.mem_union.mpr (Or.inr ha)

/-- C4 witness: concrete instantiations of both halves at deltas of the
bundled table. -/
theorem applyDelta_safe_witness :
    ((5, 16) ∈ HEAD_RIGHT.remove ∧ (5, 16) ∉ HEAD_RIGHT.add ∧
      (5, 16) ∉ (∅ : DotSet) ∧ (5, 16) ∉ applyDelta ∅ HEAD_RIGHT) ∧
    ((5, 17) ∈ HEAD_RIGHT.add ∧ (5, 17) ∈ ({(5, 17)} : DotSet) ∧
      ((5, 17) ∈ applyDelta {(5, 17)} HEAD_RIGHT ↔ (5, 17) ∈ ({(5, 17)} : DotSet))) :=
  ⟨⟨by decide, by decide, by decide,
      (applyDelta_safe ∅ HEAD_RIGHT (5, 16)).1 (by decide) (by decide) (by decide)⟩,
    ⟨by decide, by decide,
      (applyDelta_safe {(5, 17)} HEAD_RIGHT (5, 17)).2 (by decide) (by decide)⟩⟩

/-- C6: every coordinate of the initial dot set, of every remove/add set of
every delta of `TRANSITIONS`, and of the dot set of every reachable state,
satisfies 0 ≤ row < 12 = HEIGHT and 0 ≤ column < 22 = WIDTH. -/
theorem grid_bounds :
    (∀ c ∈ startingDots, inBounds c) ∧
    (∀ d ∈ TRANSITIONS, (∀ c ∈ d.remove, inBounds c) ∧ (∀ c ∈ d.add, inBounds c)) ∧
    (∀ s, Reachable s → ∀ c ∈ s.dots, inBounds c) := by
  refine ⟨bounded_startingDots, bounded_deltas, ?_⟩
  intro s hs
  obtain ⟨a, hr⟩ := hs
  induction hr with
  | refl => exact bounded_startingDots
  | tail _ hstep ih =>
      cases hstep with
      | mount _ => exact ih
      | freeze => exact ih
      | tick _ => exact bounded_tick ih

/-- C6 witness: the initial state is reachable and its dot (1, 6) is in
bounds. -/
theorem grid_bounds_witness :
    Reachable (PetitChat.init true) ∧ (1, 6) ∈ (PetitChat.init true).dots ∧
    inBounds (1, 6) :=
  ⟨⟨true, Relation.ReflTransGen.refl⟩, by decide,
    grid_bounds.2.2 _ ⟨true, Relation.ReflTransGen.refl⟩ (1, 6) (by decide)⟩

/-- C5 counterexample: after 25 ticks from a freshly mounted animating widget
— a reachable execution — the cursor has value 25, which is not in [0, 25):
the table length is 26, not 25. -/
theorem cursor_invariant_counterexample :
    Reachable (tickN ((PetitChat.init true).on_mount) 25) ∧
    (tickN ((PetitChat.init true).on_mount) 25).transition_index = 25 ∧
    ¬ (tickN ((PetitChat.init true).on_mount) 25).transition_index < 25 := by
  refine ⟨?_, by decide, by decide⟩
  exact (run_reachable
    ⟨true, Relation.ReflTransGen.refl.tail (Step.mount (PetitChat.init true) rfl)⟩
    rfl rfl 25).1

/-- C5 (amended): the cursor is 0 at construction, stays in [0, N) with
N = `TRANSITIONS.length` = 26 in every reachable state, and is advanced
modulo N by a tick exactly when the tick applies a delta. -/
theorem cursor_invariant :
    TRANSITIONS.length = 26 ∧
    (∀ a : Bool, (PetitChat.init a).transition_index = 0) ∧
    (∀ s, Reachable s → s.transition_index < 26) ∧
    (∀ s : PetitChat, AppliesDelta s →
      s.tick.transition_index = (s.transition_index + 1) % TRANSITIONS.length) ∧
    (∀ s : PetitChat, ¬ AppliesDelta s → s.tick.transition_index = s.transition_index) := by
  refine ⟨rfl, fun a => rfl, fun s hs => (reachable_stateInv hs).1, ?_, ?_⟩
  · intro s hd
    rw [tick_delta hd]
  · intro s hd
    have hc := not_not.mp hd
    rw [tick_stop hc.1 hc.2]

/-- C5 witness: the amended invariant evaluated at the freshly constructed
widget. -/
theorem cursor_invariant_witness :
    Reachable (PetitChat.init true) ∧ (PetitChat.init true).transition_index < 26 ∧
    AppliesDelta (PetitChat.init true) ∧
    (PetitChat.init true).tick.transition_index =
      ((PetitChat.init true).transition_index + 1) % TRANSITIONS.length :=
  ⟨⟨true, Relation.ReflTransGen.refl⟩,
    cursor_invariant.2.2.1 _ ⟨true, Relation.ReflTransGen.refl⟩,
    by decide,
    cursor_invariant.2.2.2.1 _ (by decide)⟩

/-- C3: for every reachable state a tick either (freeze requested and cursor
0) changes nothing except dropping the timer — dot set and cursor entirely
unchanged — or replaces the dot set by
`(dots − TRANSITIONS[cursor].remove) ∪ TRANSITIONS[cursor].add` and sets the
cursor to (cursor + 1) mod N, touching nothing else; the full record equality
shows each branch is atomic. -/
theorem tick_step (s : PetitChat) (hs : Reachable s) :
    (s.freeze_requested = true ∧ s.transition_index = 0 ∧
      s.tick = { s with timer := false }) ∨
    (AppliesDelta s ∧ ∃ h : s.transition_index < TRANSITIONS.length,
      s.tick = { s with
        dots := (s.dots \ (TRANSITIONS.get ⟨s.transition_index, h⟩).remove) ∪
          (TRANSITIONS.get ⟨s.transition_index, h⟩).add,
        transition_index := (s.transition_index + 1) % TRANSITIONS.length }) := by
  by_cases hd : AppliesDelta s
  · right
    have hlt : s.transition_index < TRANSITIONS.length := by
      rw [TRANSITIONS_length]
      exact (reachable_stateInv hs).1
    refine ⟨hd, hlt, ?_⟩
    rw [tick_delta hd, applyDelta_def, TRANS_getD_eq _ hlt]
  · left
    have hc := not_not.mp hd
    exact ⟨hc.1, hc.2, tick_stop hc.1 hc.2⟩

/-- C3 witness: the tick dichotomy evaluated at the freshly constructed
widget (which takes the delta branch). -/
theorem tick_step_witness :
    Reachable (PetitChat.init true) ∧
    (((PetitChat.init true).freeze_requested = true ∧
        (PetitChat.init true).transition_index = 0 ∧
        (PetitChat.init true).tick = { PetitChat.init true with timer := false }) ∨
      (AppliesDelta (PetitChat.init true) ∧
        ∃ h : (PetitChat.init true).transition_index < TRANSITIONS.length,
        (PetitChat.init true).tick = { PetitChat.init true with
          dots := ((PetitChat.init true).dots \
              (TRANSITIONS.get ⟨(PetitChat.init true).transition_index, h⟩).remove) ∪
            (TRANSITIONS.get ⟨(PetitChat.init true).transition_index, h⟩).add,
          transition_index :=
            ((PetitChat.init true).transition_index + 1) % TRANSITIONS.length })) :=
  ⟨⟨true, Relation.ReflTransGen.refl⟩,
    tick_step (PetitChat.init true) ⟨true, Relation.ReflTransGen.refl⟩⟩

/-- C7: once the stop branch of a tick has run the timer is off and the widget
mounted, and from any such state no later event (mount, freeze, tick) ever
changes the dot set or the cursor; a widget constructed with animate = False
never starts a timer and its dot set never leaves the initial pose. -/
theorem stopped_absorbing :
    (∀ s, Reachable s → s.timer = true → s.freeze_requested = true →
      s.transition_index = 0 →
      s.tick.timer = false ∧ s.tick.mounted = true ∧ s.tick.dots = s.dots ∧
      s.tick.transition_index = s.transition_index) ∧
    (∀ s u : PetitChat, s.timer = false → s.mounted = true →
      Relation.ReflTransGen Step s u →
      u.dots = s.dots ∧ u.transition_index = s.transition_index ∧
      u.timer = false ∧ u.mounted = true) ∧
    (∀ u : PetitChat, Relation.ReflTransGen Step (PetitChat.init false) u →
      u.timer = false ∧ u.dots = startingDots ∧ u.transition_index = 0) := by
  refine ⟨?_, ?_, ?_⟩
  · intro s hs ht hf h0
    rw [tick_stop hf h0]
    exact ⟨rfl, (reachable_stateInv hs).2.2 ht, rfl, rfl⟩
  · intro s u ht hm hru
    induction hru with
    | refl => exact ⟨rfl, rfl, ht, hm⟩
    | tail _ hstep ih =>
        obtain ⟨hd, hi, htm, hmo⟩ := ih
        cases hstep with
        | mount h =>
            rw [hmo] at h
            cases h
        | freeze => exact ⟨hd, hi, htm, hmo⟩
        | tick h =>
            rw [htm] at h
            cases h
  · intro u hru
    have key : u.timer = false ∧ u.do_animate = false ∧ u.dots = startingDots ∧
        u.transition_index = 0 := by
      induction hru with
      | refl => exact ⟨rfl, rfl, rfl, rfl⟩
      | tail _ hstep ih =>
          obtain ⟨htm, han, hd, hi⟩ := ih
          cases hstep with
          | mount h => exact ⟨han, han, hd, hi⟩
          | freeze => exact ⟨htm, han, hd, hi⟩
          | tick h =>
              rw [htm] at h
              cases h
    exact ⟨key.1, key.2.2.1, key.2.2.2⟩

/-- C7 witness: a freshly mounted animating widget with a freeze request at
cursor 0 stops on its next tick, keeping dots and cursor. -/
theorem stopped_absorbing_witness :
    Reachable ((PetitChat.init true).on_mount.freeze_animation) ∧
    ((PetitChat.init true).on_mount.freeze_animation).timer = true ∧
    ((PetitChat.init true).on_mount.freeze_animation).freeze_requested = true ∧
    ((PetitChat.init true).on_mount.freeze_animation).transition_index = 0 ∧
    (((PetitChat.init true).on_mount.freeze_animation).tick.timer = false ∧
      ((PetitChat.init true).on_mount.freeze_animation).tick.mounted = true ∧
      ((PetitChat.init true).on_mount.freeze_animation).tick.dots =
        ((PetitChat.init true).on_mount.freeze_animation).dots ∧
      ((PetitChat.init true).on_mount.freeze_animation).tick.transition_index =
        ((PetitChat.init true).on_mount.freeze_animation).transition_index) :=
  ⟨⟨true, (Relation.ReflTransGen.refl.tail
      (Step.mount (PetitChat.init true) rfl)).tail
      (Step.freeze ((PetitChat.init true).on_mount))⟩,
    rfl, rfl, rfl,
    stopped_absorbing.1 _
      ⟨true, (Relation.ReflTransGen.refl.tail
        (Step.mount (PetitChat.init true) rfl)).tail
        (Step.freeze ((PetitChat.init true).on_mount))⟩
      rfl rfl rfl⟩

/-- C2: from any reachable running state, after a freeze request there is a
number k of subsequent ticks that all apply deltas, after which the cursor is
0; the following tick stops the timer, the dot set then equals the initial
pose, and no later tick changes the state again; requesting the freeze twice
is the same as requesting it once. -/
theorem freeze_boundary (s : PetitChat) (hr : Reachable s) (ht : s.timer = true) :
    (∀ t : PetitChat, t.freeze_animation.freeze_animation = t.freeze_animation) ∧
    ∃ k : ℕ,
      (∀ j, j < k → AppliesDelta (tickN s.freeze_animation j)) ∧
      (tickN s.freeze_animation k).transition_index = 0 ∧
      (tickN s.freeze_animation (k + 1)).timer = false ∧
      (tickN s.freeze_animation (k + 1)).dots = startingDots ∧
      (∀ m, k + 1 ≤ m →
        tickN s.freeze_animation m = tickN s.freeze_animation (k + 1)) := by
  have hInvF : StateInv s.freeze_animation := stateInv_freeze (reachable_stateInv hr)
  have hfr := freeze_run s.freeze_animation rfl hInvF.1
  refine ⟨fun t => rfl,
    (26 - s.freeze_animation.transition_index) % 26, hfr.1, hfr.2.1, ?_, ?_,
    hfr.2.2.2.2.2⟩
  · rw [hfr.2.2.2.2.1]
  · rw [hfr.2.2.2.2.1]
    show (tickN s.freeze_animation
      ((26 - s.freeze_animation.transition_index) % 26)).dots = startingDots
    have hIk := stateInv_tickN hInvF ((26 - s.freeze_animation.transition_index) % 26)
    rw [hIk.2.1, hfr.2.1]
    exact poseAt_zero

/-- C2 witness: the freeze boundary evaluated at the freshly mounted
animating widget. -/
theorem freeze_boundary_witness :
    Reachable ((PetitChat.init true).on_mount) ∧
    ((PetitChat.init true).on_mount).timer = true ∧
    ((∀ t : PetitChat, t.freeze_animation.freeze_animation = t.freeze_animation) ∧
      ∃ k : ℕ,
        (∀ j, j < k →
          AppliesDelta (tickN ((PetitChat.init true).on_mount).freeze_animation j)) ∧
        (tickN ((PetitChat.init true).on_mount).freeze_animation k).transition_index = 0 ∧
        (tickN ((PetitChat.init true).on_mount).freeze_animation (k + 1)).timer = false ∧
        (tickN ((PetitChat.init true).on_mount).freeze_animation (k + 1)).dots =
          startingDots ∧
        (∀ m, k + 1 ≤ m →
          tickN ((PetitChat.init true).on_mount).freeze_animation m =
            tickN ((PetitChat.init true).on_mount).freeze_animation (k + 1))) :=
  ⟨⟨true, Relation.ReflTransGen.refl.tail (Step.mount (PetitChat.init true) rfl)⟩,
    rfl,
    freeze_boundary ((PetitChat.init true).on_mount)
      ⟨true, Relation.ReflTransGen.refl.tail (Step.mount (PetitChat.init true) rfl)⟩
      rfl⟩

/-- C10 counterexample: freeze requested while the cursor is 1.  The claim
predicts (25 − 1) mod 25 = 24 further deltas and then a stop, i.e. tick
number 24 (0-based) must not apply a delta; in fact it does — the animator
applies (26 − 1) mod 26 = 25 deltas, reaching cursor 0 only after tick 24. -/
theorem freeze_latency_counterexample :
    ((PetitChat.init true).on_mount.tick.freeze_animation).transition_index = 1 ∧
    AppliesDelta (tickN ((PetitChat.init true).on_mount.tick.freeze_animation) 24) ∧
    (tickN ((PetitChat.init true).on_mount.tick.freeze_animation) 25).transition_index = 0 ∧
    ¬ AppliesDelta (tickN ((PetitChat.init true).on_mount.tick.freeze_animation) 25) := by
  refine ⟨by decide, by decide, by decide, by decide⟩

/-- C10 (amended): if the freeze flag is set while the cursor has value
c ∈ [0, 26), exactly (26 − c) mod 26 further ticks apply deltas and every
later tick applies none; the tick after those stops the timer.  A freeze
requested at cursor 0 stops on the very next tick with zero further deltas,
leaving the dot set exactly as it was when the freeze was requested. -/
theorem freeze_latency (s : PetitChat) (c : ℕ) (hc : s.transition_index = c)
    (hlt : c < 26) :
    (∀ j, j < (26 - c) % 26 → AppliesDelta (tickN s.freeze_animation j)) ∧
    (∀ j, (26 - c) % 26 ≤ j → ¬ AppliesDelta (tickN s.freeze_animation j)) ∧
    (tickN s.freeze_animation ((26 - c) % 26 + 1)).timer = false ∧
    (c = 0 → ∀ n, (tickN s.freeze_animation n).dots = s.dots) := by
  subst hc
  have hfr := freeze_run s.freeze_animation rfl
    (show s.freeze_animation.transition_index < 26 from hlt)
  rw [show s.freeze_animation.transition_index = s.transition_index from rfl] at hfr
  refine ⟨hfr.1, ?_, ?_, ?_⟩
  · intro j hj hap
    rcases Nat.eq_or_lt_of_le hj with heq | hlt'
    · rw [← heq] at hap
      exact hap ⟨hfr.2.2.1, hfr.2.1⟩
    · rw [hfr.2.2.2.2.2 j hlt', hfr.2.2.2.2.1] at hap
      exact hap ⟨hfr.2.2.1, hfr.2.1⟩
  · rw [hfr.2.2.2.2.1]
  · intro h0 n
    rcases Nat.eq_zero_or_pos n with hn | hn
    · subst hn
      exact rfl
    · have hk0 : (26 - s.transition_index) % 26 = 0 := by
        rw [h0]
      rw [hk0] at hfr
      rw [hfr.2.2.2.2.2 n (by omega), hfr.2.2.2.2.1]
      exact rfl

/-- C10 witness: the amended latency evaluated with a freeze requested at
cursor 0 of the freshly mounted widget: zero deltas, immediate stop, dots
kept. -/
theorem freeze_latency_witness :
    ((PetitChat.init true).on_mount).transition_index = 0 ∧ (0 : ℕ) < 26 ∧
    ((∀ j, j < (26 - 0) % 26 →
        AppliesDelta (tickN ((PetitChat.init true).on_mount).freeze_animation j)) ∧
      (∀ j, (26 - 0) % 26 ≤ j →
        ¬ AppliesDelta (tickN ((PetitChat.init true).on_mount).freeze_animation j)) ∧
      (tickN ((PetitChat.init true).on_mount).freeze_animation
        ((26 - 0) % 26 + 1)).timer = false ∧
      ((0 : ℕ) = 0 → ∀ n,
        (tickN ((PetitChat.init true).on_mount).freeze_animation n).dots =
          ((PetitChat.init true).on_mount).dots)) :=
  ⟨rfl, by norm_num,
    freeze_latency ((PetitChat.init true).on_mount) 0 rfl (by norm_num)⟩

/-- C8 counterexample: a reachable state with a live timer, a pending freeze
and cursor 0.  Its tick is the stopping tick (the timer goes from live to
off), yet the tick hands nothing to the display surface — refuting
"regenerated and handed to the display surface on every tick, including the
tick on which the animator stops". -/
theorem output_per_tick_counterexample :
    ((PetitChat.init true).on_mount.freeze_animation).timer = true ∧
    ((PetitChat.init true).on_mount.freeze_animation).apply_next_transition.2 = none ∧
    (((PetitChat.init true).on_mount.freeze_animation).apply_next_transition.1).timer =
      false := by
  refine ⟨rfl, by decide, by decide⟩

/-- C8 (amended): the block handed to the inner `Static` at compose time,
before any tick, renders the initial pose; every delta-applying tick hands
over exactly one re-rendered block of the new dot set; the stop tick hands
over nothing. -/
theorem output_per_tick :
    (∀ a : Bool, (PetitChat.init a).compose = render_braille startingDots WIDTH HEIGHT) ∧
    (∀ s : PetitChat, AppliesDelta s →
      s.apply_next_transition.2 =
        some (render_braille s.apply_next_transition.1.dots WIDTH HEIGHT)) ∧
    (∀ s : PetitChat, ¬ AppliesDelta s → s.apply_next_transition.2 = none) := by
  refine ⟨fun a => rfl, ?_, ?_⟩
  · intro s hd
    rw [ant_delta hd]
  · intro s hd
    have hc := not_not.mp hd
    rw [ant_stop hc.1 hc.2]

/-- C8 witness: the two tick branches evaluated at concrete states. -/
theorem output_per_tick_witness :
    (AppliesDelta (PetitChat.init true) ∧
      (PetitChat.init true).apply_next_transition.2 =
        some (render_braille (PetitChat.init true).apply_next_transition.1.dots
          WIDTH HEIGHT)) ∧
    (¬ AppliesDelta ((PetitChat.init true).on_mount.freeze_animation) ∧
      ((PetitChat.init true).on_mount.freeze_animation).apply_next_transition.2 =
        none) :=
  ⟨⟨by decide, output_per_tick.2.1 (PetitChat.init true) (by decide)⟩,
    ⟨by decide,
      output_per_tick.2.2 ((PetitChat.init true).on_mount.freeze_animation)
        (by decide)⟩⟩

lemma cellMask_empty (cr cc : ℕ) : cellMask (∅ : DotSet) cr cc = 0 := by
  simp [cellMask]

/-- C9: for any coordinate set within the H × W grid the rendered block has
exactly ⌈H/4⌉ = (H+3)/4 lines of exactly ⌈W/2⌉ = (W+1)/2 characters each,
also when H, W are not multiples of 4, 2; the renderer is a pure function, so
its output is identical across calls on the same arguments; and for the empty
set every emitted character is the all-dots-off base character, never a
space. -/
theorem render_contract (S : DotSet) (W H : ℕ)
    (hb : ∀ c ∈ S, c.1 < H ∧ c.2 < W) :
    (renderLines S W H).length = (H + 3) / 4 ∧
    (∀ line ∈ renderLines S W H, line.length = (W + 1) / 2) ∧
    render_braille S W H = render_braille S W H ∧
    (∀ line ∈ renderLines (∅ : DotSet) W H, ∀ ch ∈ line, ch = Char.ofNat brailleBase) := by
  refine ⟨by simp [renderLines], ?_, rfl, ?_⟩
  · intro line hl
    simp only [renderLines, List.mem_map, List.mem_range] at hl
    obtain ⟨cr, -, rfl⟩ := hl
    simp [renderLine]
  · intro line hl ch hc
    simp only [renderLines, List.mem_map, List.mem_range] at hl
    obtain ⟨cr, -, rfl⟩ := hl
    simp only [renderLine, List.mem_map, List.mem_range] at hc
    obtain ⟨cc, -, rfl⟩ := hc
    rw [cellMask_empty, Nat.add_zero]

/-- C9 witness: the contract evaluated at the bundled sprite's initial pose
and dimensions: 3 lines of 11 characters. -/
theorem render_contract_witness :
    (∀ c ∈ startingDots, c.1 < HEIGHT ∧ c.2 < WIDTH) ∧
    ((renderLines startingDots WIDTH HEIGHT).length = (HEIGHT + 3) / 4 ∧
      (∀ line ∈ renderLines startingDots WIDTH HEIGHT, line.length = (WIDTH + 1) / 2) ∧
      render_braille startingDots WIDTH HEIGHT = render_braille startingDots WIDTH HEIGHT ∧
      (∀ line ∈ renderLines (∅ : DotSet) WIDTH HEIGHT, ∀ ch ∈ line,
        ch = Char.ofNat brailleBase)) :=
  ⟨by decide, render_contract startingDots WIDTH HEIGHT (by decide)⟩
